import Mathlib

/-
Verification of the Headroom sidecar core (src/headroom-sidecar/server.py)
against its natural-language specification.

The embedding models the Python module as pure Lean functions:
  - JSON-like payloads are the mutual inductive `Json` (Python dicts keep
    insertion order, so objects are ordered key/value lists);
  - `json.dumps` (ensure_ascii, default separators) is `Json.dumps`, and
    `json.dumps(x, sort_keys=True)` is `Json.dumps (sortJson x)`;
  - `hashlib.sha256(...).hexdigest()[:12]` is a full executable SHA-256
    over byte lists (`sha256`), with `generateHash` mirroring
    `generate_hash`;
  - the module-level mutable `ccr_store` dict and `metrics` dict become
    explicit state threaded through the functions that touch them;
  - wall-clock reads (`time.time()`) become explicit `Nat` parameters.
Numbers in payloads are modelled as `Int` (the claims only exercise
integer and string payloads); Python floats appearing in derived
statistics (`savings_percent`, the measured latency) are outside the
claims, `savings_percent` is omitted from the embedded stats dict and
latency is abstracted as a supplied measurement parameter.
-/

/-! ## JSON values -/

mutual
/-- JSON-like structured values handled by the sidecar (Python objects
passed through `json.dumps`). Objects are insertion-ordered lists of
key/value pairs, as Python dicts are. -/
inductive Json where
  | null
  | jbool (b : Bool)
  | num (n : Int)
  | str (s : String)
  | arr (xs : JList)
  | obj (kvs : JObj)
deriving DecidableEq, Repr
/-- A list of JSON values (a Python list). -/
inductive JList where
  | nil
  | cons (hd : Json) (tl : JList)
deriving DecidableEq, Repr
/-- Ordered key/value pairs of a JSON object (a Python dict's items). -/
inductive JObj where
  | nil
  | cons (key : String) (val : Json) (tl : JObj)
deriving DecidableEq, Repr
end

/-! ## Python `json.dumps` with `ensure_ascii=True` and default separators -/

/-- Lowercase hexadecimal digit for a value below 16 (as `"%x"` formats). -/
def hexDigit (n : Nat) : Char :=
  if n < 10 then Char.ofNat (48 + n) else Char.ofNat (87 + n)

/-- Four lowercase hex digits, as Python's `"\\u%04x"` escape body. -/
def hex4 (n : Nat) : String :=
  String.mk [hexDigit (n / 4096 % 16), hexDigit (n / 256 % 16),
             hexDigit (n / 16 % 16), hexDigit (n % 16)]

/-- Escape of a single character in a Python `json.dumps` string with
`ensure_ascii=True`: printable ASCII other than quote and backslash is
kept, the two-character shortcuts cover the usual control characters,
everything else becomes `\\uXXXX` (a surrogate pair beyond the BMP). -/
def escChar (c : Char) : String :=
  if c = '"' then "\\\""
  else if c = '\\' then "\\\\"
  else if c = '\n' then "\\n"
  else if c = '\t' then "\\t"
  else if c = '\r' then "\\r"
  else if c.toNat = 8 then "\\b"
  else if c.toNat = 12 then "\\f"
  else if 32 ≤ c.toNat ∧ c.toNat ≤ 126 then String.mk [c]
  else if c.toNat < 65536 then "\\u" ++ hex4 c.toNat
  else "\\u" ++ hex4 (55296 + (c.toNat - 65536) / 1024) ++
       "\\u" ++ hex4 (56320 + (c.toNat - 65536) % 1024)

/-- `escChar` applied to every character, concatenated. -/
def escapeChars : List Char → String
  | [] => ""
  | c :: cs => escChar c ++ escapeChars cs

/-- JSON string-body escaping: `escChar` applied to every character. -/
def escapeString (s : String) : String :=
  escapeChars s.data

/-- A double-quoted, escaped JSON string literal. -/
def quoteStr (s : String) : String :=
  "\"" ++ escapeString s ++ "\""

mutual
/-- `json.dumps` with default separators (`", "` and `": "`), keys in
insertion order, `ensure_ascii=True` escaping. -/
def Json.dumps : Json → String
  | .null => "null"
  | .jbool b => if b then "true" else "false"
  | .num n => toString n
  | .str s => quoteStr s
  | .arr xs => "[" ++ JList.dumps xs ++ "]"
  | .obj kvs => "\x7b" ++ JObj.dumps kvs ++ "\x7d"
/-- Comma-joined serializations of the elements of a JSON array. -/
def JList.dumps : JList → String
  | .nil => ""
  | .cons x .nil => Json.dumps x
  | .cons x (.cons y tl) => Json.dumps x ++ ", " ++ JList.dumps (.cons y tl)
/-- Comma-joined `"key": value` serializations of an object's items. -/
def JObj.dumps : JObj → String
  | .nil => ""
  | .cons k v .nil => quoteStr k ++ ": " ++ Json.dumps v
  | .cons k v (.cons k2 v2 tl) =>
      quoteStr k ++ ": " ++ Json.dumps v ++ ", " ++ JObj.dumps (.cons k2 v2 tl)
end

/-- Insert one key/value pair into an object already sorted by key
(stable, ascending key order, as Python `sorted` on dict items). -/
def insertByKey (k : String) (v : Json) : JObj → JObj
  | .nil => .cons k v .nil
  | .cons k2 v2 tl =>
      if k < k2 then .cons k v (.cons k2 v2 tl)
      else .cons k2 v2 (insertByKey k v tl)

mutual
/-- Recursively sort every object's keys; `Json.dumps (sortJson x)`
models Python's `json.dumps(x, sort_keys=True)`. -/
def sortJson : Json → Json
  | .null => .null
  | .jbool b => .jbool b
  | .num n => .num n
  | .str s => .str s
  | .arr xs => .arr (sortJList xs)
  | .obj kvs => .obj (sortJObj kvs)
/-- `sortJson` mapped over a JSON array. -/
def sortJList : JList → JList
  | .nil => .nil
  | .cons x tl => .cons (sortJson x) (sortJList tl)
/-- Sort an object's items by key after recursively sorting the values. -/
def sortJObj : JObj → JObj
  | .nil => .nil
  | .cons k v tl => insertByKey k (sortJson v) (sortJObj tl)
end

/-- Canonical (key-sorted) serialization: `json.dumps(x, sort_keys=True)`. -/
def canonicalDumps (j : Json) : String :=
  Json.dumps (sortJson j)

/-! ## SHA-256 (`hashlib.sha256`), executable over byte lists

32-bit words are `Nat` values kept below `2 ^ 32` by explicit `% 2 ^ 32`
reductions after every addition; bitwise operations stay in range. -/

/-- Right rotation of a 32-bit word by `n` places. -/
def rotr32 (n x : Nat) : Nat :=
  ((x >>> n) ||| (x <<< (32 - n))) % 2 ^ 32

/-- The 64 SHA-256 round constants. -/
def shaK : List Nat :=
  [1116352408, 1899447441, 3049323471, 3921009573, 961987163, 1508970993,
   2453635748, 2870763221, 3624381080, 310598401, 607225278, 1426881987,
   1925078388, 2162078206, 2614888103, 3248222580, 3835390401, 4022224774,
   264347078, 604807628, 770255983, 1249150122, 1555081692, 1996064986,
   2554220882, 2821834349, 2952996808, 3210313671, 3336571891, 3584528711,
   113926993, 338241895, 666307205, 773529912, 1294757372, 1396182291,
   1695183700, 1986661051, 2177026350, 2456956037, 2730485921, 2820302411,
   3259730800, 3345764771, 3516065817, 3600352804, 4094571909, 275423344,
   430227734, 506948616, 659060556, 883997877, 958139571, 1322822218,
   1537002063, 1747873779, 1955562222, 2024104815, 2227730452, 2361852424,
   2428436474, 2756734187, 3204031479, 3329325298]

/-- The eight 32-bit hash state words. -/
structure ShaState where
  h0 : Nat
  h1 : Nat
  h2 : Nat
  h3 : Nat
  h4 : Nat
  h5 : Nat
  h6 : Nat
  h7 : Nat
deriving DecidableEq, Repr

/-- SHA-256 initial hash value. -/
def shaInit : ShaState :=
  ⟨1779033703, 3144134277, 1013904242, 2773480762,
   1359893119, 2600822924, 528734635, 1541459225⟩

/-- Append the standard SHA-256 padding: a `0x80` byte, zero bytes up to
56 mod 64, then the bit length as eight big-endian bytes. -/
def padMessage (msg : List Nat) : List Nat :=
  let bitLen := msg.length * 8
  let zeros := (119 - msg.length % 64) % 64
  msg ++ 0x80 :: List.replicate zeros 0 ++
    [bitLen >>> 56 % 256, bitLen >>> 48 % 256, bitLen >>> 40 % 256,
     bitLen >>> 32 % 256, bitLen >>> 24 % 256, bitLen >>> 16 % 256,
     bitLen >>> 8 % 256, bitLen % 256]

/-- Group bytes four at a time into big-endian 32-bit words. -/
def bytesToWords : List Nat → List Nat
  | a :: b :: c :: d :: rest => (((a * 256 + b) * 256 + c) * 256 + d) :: bytesToWords rest
  | _ => []

/-- Message-schedule extension: starting from the reversed 16 block words,
prepend `fuel` further words, then reverse into schedule order. -/
def shaExtend : Nat → List Nat → List Nat
  | 0, acc => acc.reverse
  | fuel + 1, acc =>
      let w15 := acc.getD 14 0
      let w2 := acc.getD 1 0
      let s0 := rotr32 7 w15 ^^^ rotr32 18 w15 ^^^ (w15 >>> 3)
      let s1 := rotr32 17 w2 ^^^ rotr32 19 w2 ^^^ (w2 >>> 10)
      shaExtend fuel (((acc.getD 15 0 + s0 + acc.getD 6 0 + s1) % 2 ^ 32) :: acc)

/-- One compression round: the working variables are rotated after adding
the round constant and schedule word pair `kw`. -/
def shaRound (v : ShaState) (kw : Nat × Nat) : ShaState :=
  let s1 := rotr32 6 v.h4 ^^^ rotr32 11 v.h4 ^^^ rotr32 25 v.h4
  let ch := (v.h4 &&& v.h5) ^^^ ((v.h4 ^^^ 0xffffffff) &&& v.h6)
  let temp1 := (v.h7 + s1 + ch + kw.1 + kw.2) % 2 ^ 32
  let s0 := rotr32 2 v.h0 ^^^ rotr32 13 v.h0 ^^^ rotr32 22 v.h0
  let maj := (v.h0 &&& v.h1) ^^^ (v.h0 &&& v.h2) ^^^ (v.h1 &&& v.h2)
  let temp2 := (s0 + maj) % 2 ^ 32
  ⟨(temp1 + temp2) % 2 ^ 32, v.h0, v.h1, v.h2,
   (v.h3 + temp1) % 2 ^ 32, v.h4, v.h5, v.h6⟩

/-- Compress one 64-word schedule into the running hash state. -/
def shaCompress (h : ShaState) (ws : List Nat) : ShaState :=
  let f := (shaK.zip ws).foldl shaRound h
  ⟨(h.h0 + f.h0) % 2 ^ 32, (h.h1 + f.h1) % 2 ^ 32, (h.h2 + f.h2) % 2 ^ 32,
   (h.h3 + f.h3) % 2 ^ 32, (h.h4 + f.h4) % 2 ^ 32, (h.h5 + f.h5) % 2 ^ 32,
   (h.h6 + f.h6) % 2 ^ 32, (h.h7 + f.h7) % 2 ^ 32⟩

/-- Fold the compression function over successive 16-word blocks. -/
def shaBlocks : ShaState → List Nat → ShaState
  | h, w0 :: w1 :: w2 :: w3 :: w4 :: w5 :: w6 :: w7 ::
       w8 :: w9 :: w10 :: w11 :: w12 :: w13 :: w14 :: w15 :: rest =>
      let ws := shaExtend 48
        [w15, w14, w13, w12, w11, w10, w9, w8, w7, w6, w5, w4, w3, w2, w1, w0]
      shaBlocks (shaCompress h ws) rest
  | h, _ => h

/-- Big-endian bytes of a 32-bit word. -/
def wordBytes (w : Nat) : List Nat :=
  [w >>> 24 % 256, w >>> 16 % 256, w >>> 8 % 256, w % 256]

/-- SHA-256 digest (32 bytes) of a byte list. -/
def sha256 (msg : List Nat) : List Nat :=
  let d := shaBlocks shaInit (bytesToWords (padMessage msg))
  wordBytes d.h0 ++ wordBytes d.h1 ++ wordBytes d.h2 ++ wordBytes d.h3 ++
  wordBytes d.h4 ++ wordBytes d.h5 ++ wordBytes d.h6 ++ wordBytes d.h7

/-- Lowercase-hex rendering of a byte list, two digits per byte
(`hexdigest`). -/
def hexOfBytes : List Nat → List Char
  | [] => []
  | b :: bs => hexDigit (b / 16 % 16) :: hexDigit (b % 16) :: hexOfBytes bs

/-- UTF-8 bytes of a `dumps` output. `Json.dumps` emits only ASCII
(`ensure_ascii`), so the encoding is the code points themselves. -/
def strBytes (s : String) : List Nat :=
  s.data.map Char.toNat

/-- `generate_hash` (server.py lines 145-148): the first 12 characters of
the lowercase hex SHA-256 digest of the canonical serialization. -/
def generateHash (content : Json) : String :=
  String.mk ((hexOfBytes (sha256 (strBytes (canonicalDumps content)))).take 12)

/-! ## Python string helpers: `str.lower` and the `in` operator -/

/-- ASCII lowercasing of one character; the payloads the claims exercise
are ASCII, where Python `str.lower` agrees with this. -/
def lowerChar (c : Char) : Char :=
  if 65 ≤ c.toNat ∧ c.toNat ≤ 90 then Char.ofNat (c.toNat + 32) else c

/-- ASCII `str.lower`. -/
def strLower (s : String) : String :=
  String.mk (s.data.map lowerChar)

/-- Whether the first list is an initial segment of the second. -/
def startsWithL : List Char → List Char → Bool
  | [], _ => true
  | _ :: _, [] => false
  | a :: as, b :: bs => a == b && startsWithL as bs

/-- Substring test on character lists (the Python `in` operator on str). -/
def containsSub : List Char → List Char → Bool
  | needle, [] => needle.isEmpty
  | needle, c :: cs => startsWithL needle (c :: cs) || containsSub needle cs

/-- Python `needle in hay` for strings. -/
def pyIn (needle hay : String) : Bool :=
  containsSub needle.data hay.data

/-! ## Dict primitives on `JObj` (Python dict get / assignment) -/

/-- `d.get(key)`: first value bound to `key`, if any. -/
def JObj.get : JObj → String → Option Json
  | .nil, _ => none
  | .cons k v tl, key => if k = key then some v else JObj.get tl key

/-- `d.get(key, default)`. -/
def JObj.getD (o : JObj) (key : String) (dflt : Json) : Json :=
  (o.get key).getD dflt

/-- `d[key] = v`: replace the value in place if the key exists (Python
dicts keep the key's position), else append the pair. -/
def JObj.set : JObj → String → Json → JObj
  | .nil, key, v => .cons key v .nil
  | .cons k v0 tl, key, v =>
      if k = key then .cons k v tl else .cons k v0 (JObj.set tl key v)

/-- Read a nonnegative integer statistic out of a stats dict, as
`result["stats"]["tokens_after"]` does (the key is always present with an
int value in the dicts `basic_compress` builds; 0 is an unreachable
fallback the model needs for totality). -/
def JObj.getNat (o : JObj) (key : String) : Nat :=
  match o.get key with
  | some (.num n) => n.toNat
  | _ => 0

/-! ## The CCR store (`ccr_store` dict, TTL sweep) -/

/-- One `ccr_store` value: the stored payload, its insertion time, and
the provenance label (the dict literal at server.py lines 176-180; the
`tool_name` key is always written, so it is a plain field here and
`entry.get("tool_name", "unknown")` reads it directly). -/
structure Entry where
  content : Json
  timestamp : Nat
  toolName : Json
deriving DecidableEq, Repr

/-- The `ccr_store` dict: insertion-ordered association list keyed by the
12-character address. -/
abbrev Store := List (String × Entry)

/-- Python dict lookup `store[hash]` / `hash in store`. -/
def storeGet : Store → String → Option Entry
  | [], _ => none
  | (k, e) :: tl, key => if k = key then some e else storeGet tl key

/-- Python dict assignment `ccr_store[hash_key] = entry`: overwrite in
place if present, else append. -/
def storeSet : Store → String → Entry → Store
  | [], key, e => [(key, e)]
  | (k, e0) :: tl, key, e =>
      if k = key then (k, e) :: tl else (k, e0) :: storeSet tl key e

/-- The Python-dict invariant: every key occurs at most once. -/
def keysNodup (s : Store) : Prop :=
  (s.map Prod.fst).Nodup

/-- How many entries a store holds under a given key. -/
def countKey (s : Store) (key : String) : Nat :=
  (s.filter fun p => p.1 = key).length

instance (s : Store) : Decidable (keysNodup s) := by
  unfold keysNodup; infer_instance

/-- `cleanup_expired_ccr` (server.py lines 151-156): delete every entry
whose age `now - timestamp` strictly exceeds the TTL. -/
def cleanupExpiredCcr (now ttl : Nat) (s : Store) : Store :=
  s.filter fun p => decide (now - p.2.timestamp ≤ ttl)

/-! ## Token estimation (`estimate_tokens`) -/

/-- `estimate_tokens`: a string is measured directly, anything else is
serialized first; either way the character count is divided by 4. -/
def estimateTokens : Json → Nat
  | .str s => s.length / 4
  | d => (Json.dumps d).length / 4

/-- A message is a Python dict. -/
abbrev Msg := JObj

/-- Pack a Lean-level list of messages as the JSON array Python passes to
`json.dumps(messages)`. -/
def packMsgs : List Msg → JList
  | [] => .nil
  | m :: rest => .cons (.obj m) (packMsgs rest)

/-- `estimate_tokens(messages)` for a message list. -/
def estimateMsgs (messages : List Msg) : Nat :=
  estimateTokens (.arr (packMsgs messages))

/-! ## Fallback compression (`basic_compress`, server.py lines 159-207) -/

/-- `block.get(key)` for a content block. Blocks reaching this code are
dicts (a non-dict would raise `AttributeError` in Python before any store
write; the claims only exercise dict blocks, which this models). -/
def Json.bget (b : Json) (key : String) : Option Json :=
  match b with
  | .obj kvs => kvs.get key
  | _ => none

/-- `block.get(key, default)`. -/
def Json.bgetD (b : Json) (key : String) (dflt : Json) : Json :=
  (b.bget key).getD dflt

/-- `block["content"] = v` on a copied block (pure update of the copy). -/
def Json.bset (b : Json) (key : String) (v : Json) : Json :=
  match b with
  | .obj kvs => .obj (kvs.set key v)
  | other => other

/-- The replacement reference string for an offloaded tool result:
`f"[CCR:{hash_key}] Content compressed ({len(content)} chars). Use
ccr_retrieve to access full content."`. -/
def ccrRef (hashKey : String) (len : Nat) : String :=
  "[CCR:" ++ hashKey ++ "] Content compressed (" ++ Nat.repr len ++
    " chars). Use ccr_retrieve to access full content."

/-- Per-block step of `basic_compress`: a `tool_result` block whose
`content` is a string longer than 2000 characters is stored under its
hash (timestamp `now`, labeled by `tool_use_id` defaulting to
`"unknown"`), the store counter is bumped, and the block's content is
replaced by the reference string; every other block passes through. -/
def processBlock (now : Nat) (st : Store) (block : Json) : Json × Store × Nat :=
  if block.bget "type" = some (.str "tool_result") then
    match block.bgetD "content" (.str "") with
    | .str c =>
        if 2000 < c.length then
          let hashKey := generateHash (.str c)
          let entry : Entry := ⟨.str c, now, block.bgetD "tool_use_id" (.str "unknown")⟩
          (block.bset "content" (.str (ccrRef hashKey c.length)),
           storeSet st hashKey entry, 1)
        else (block, st, 0)
    | _ => (block, st, 0)
  else (block, st, 0)

/-- The `for block in msg["content"]` loop, threading the store and the
`ccr_stores` increment count and rebuilding `new_content` in order. -/
def processBlocks (now : Nat) (st : Store) (inc : Nat) : JList → JList × Store × Nat
  | .nil => (.nil, st, inc)
  | .cons b tl =>
      let r := processBlock now st b
      let rest := processBlocks now r.2.1 (inc + r.2.2) tl
      (.cons r.1 rest.1, rest.2.1, rest.2.2)

/-- Per-message step of `basic_compress`: only a `user` message whose
content is a list has its blocks walked (and its `content` key rebound on
the message copy); everything else passes through. -/
def compressOneMsg (now : Nat) (st : Store) (m : Msg) : Msg × Store × Nat :=
  if m.get "role" = some (.str "user") then
    match m.get "content" with
    | some (.arr blocks) =>
        let r := processBlocks now st 0 blocks
        (m.set "content" (.arr r.1), r.2.1, r.2.2)
    | _ => (m, st, 0)
  else (m, st, 0)

/-- The `for msg in messages` loop of `basic_compress`. -/
def compressMsgList (now : Nat) (st : Store) : List Msg → List Msg × Store × Nat
  | [] => ([], st, 0)
  | m :: rest =>
      let r := compressOneMsg now st m
      let rs := compressMsgList now r.2.1 rest
      (r.1 :: rs.1, rs.2.1, r.2.2 + rs.2.2)

/-- Pack transform names as the JSON list recorded in stats. -/
def packStrs : List String → JList
  | [] => .nil
  | s :: rest => .cons (.str s) (packStrs rest)

/-- The stats dict shared by `basic_compress` and the pipeline branch:
`tokens_before`, `tokens_after`, `tokens_saved`, `transforms_applied`,
`latency_ms`, in source order. The float-valued `savings_percent` entry
between `tokens_saved` and `transforms_applied` is omitted from the
embedding (no claim mentions it). -/
def statsObj (tb ta : Nat) (transforms : List String) (lat : Nat) : JObj :=
  .cons "tokens_before" (.num tb)
    (.cons "tokens_after" (.num ta)
      (.cons "tokens_saved" (.num ((tb : Int) - (ta : Int)))
        (.cons "transforms_applied" (.arr (packStrs transforms))
          (.cons "latency_ms" (.num lat) .nil))))

/-- The value `basic_compress` returns, together with the effects it had
on the module state (`ccr_store`, and the `ccr_stores` counter bumps). -/
structure BCResult where
  messages : List Msg
  tools : Option JList
  compressed : Bool
  stats : JObj
  store : Store
  storesInc : Nat
deriving DecidableEq, Repr

/-- `basic_compress` (server.py lines 159-207). -/
def basicCompress (now : Nat) (store : Store) (messages : List Msg)
    (tools : Option JList) : BCResult :=
  let tokensBefore := estimateMsgs messages
  let r := compressMsgList now store messages
  let tokensAfter := estimateMsgs r.1
  { messages := r.1
    tools := tools
    compressed := decide (tokensAfter < tokensBefore)
    stats := statsObj tokensBefore tokensAfter
      (if tokensAfter < tokensBefore then ["basic_ccr"] else []) 0
    store := r.2.1
    storesInc := r.2.2 }

/-! ## Retrieval (`ccr_retrieve`, server.py lines 327-377) -/

/-- The `CCRRetrieveResponse` model. -/
structure RetrieveResponse where
  success : Bool
  content : Option Json
  itemsRetrieved : Nat
  wasSearch : Bool
  error : Option String
deriving DecidableEq, Repr

/-- The retrieval result together with the store after its sweep and the
`ccr_retrievals` counter bump. -/
structure RetrieveOutcome where
  resp : RetrieveResponse
  store : Store
  retrievalsInc : Nat
deriving DecidableEq, Repr

/-- The missing/expired-address failure message. -/
def notFoundMsg (hash : String) : String :=
  "Hash " ++ hash ++ " not found or expired"

/-- Length of a JSON array. -/
def JList.length : JList → Nat
  | .nil => 0
  | .cons _ tl => 1 + JList.length tl

/-- First `n` elements of a JSON array. -/
def JList.take : Nat → JList → JList
  | 0, _ => .nil
  | _, .nil => .nil
  | n + 1, .cons x tl => .cons x (JList.take n tl)

/-- Python's `l[:k]` for a possibly-absent, possibly-negative bound
(`max_results` is `Optional[int]`): `None` keeps everything, a negative
`k` drops `|k|` items from the end. -/
def pySlice (xs : JList) : Option Int → JList
  | none => xs
  | some k =>
      if 0 ≤ k then JList.take k.toNat xs
      else JList.take (JList.length xs - (-k).toNat) xs

/-- The query filter of the list branch: items whose serialization
contains the query, both lowercased. -/
def JList.filterQ (q : String) : JList → JList
  | .nil => .nil
  | .cons x tl =>
      if pyIn (strLower q) (strLower (Json.dumps x)) then
        .cons x (JList.filterQ q tl)
      else JList.filterQ q tl

/-- The final `Return full content` response of `ccr_retrieve`. -/
def fullResponse (content : Json) : RetrieveResponse :=
  { success := true
    content := some content
    itemsRetrieved := match content with | .arr xs => xs.length | _ => 1
    wasSearch := false
    error := none }

/-- `ccr_retrieve` (server.py lines 327-377): sweep, NotFound on a
missing address, otherwise the query-driven search (list filter, string
containment, or fall-through) or the full content. An empty query string
is falsy in Python, hence the `q = ""` full-content path. -/
def ccrRetrieve (now ttl : Nat) (store : Store) (hash : String)
    (query : Option String) (maxResults : Option Int) : RetrieveOutcome :=
  let store2 := cleanupExpiredCcr now ttl store
  match storeGet store2 hash with
  | none =>
      ⟨⟨false, none, 0, false, some (notFoundMsg hash)⟩, store2, 0⟩
  | some entry =>
      match query with
      | some q =>
          if q = "" then ⟨fullResponse entry.content, store2, 1⟩
          else
            match entry.content with
            | .arr items =>
                let filtered := pySlice (JList.filterQ q items) maxResults
                ⟨⟨true, some (.arr filtered), filtered.length, true, none⟩, store2, 1⟩
            | .str s =>
                if pyIn (strLower q) (strLower s) then
                  ⟨⟨true, some (.str s), 1, true, none⟩, store2, 1⟩
                else
                  ⟨⟨false, none, 0, false, some "Query not found in content"⟩, store2, 1⟩
            | _ => ⟨fullResponse entry.content, store2, 1⟩
      | none => ⟨fullResponse entry.content, store2, 1⟩

/-! ## Analysis (`ccr_analyze`, server.py lines 391-405) -/

/-- The fixed relevance score: the literal `0.8` as the exact rational
4/5, written through the `Rat` constructor so it evaluates in the
kernel. -/
def relevanceScore : Rat := ⟨4, 5, by decide, by decide⟩



/-- One expansion suggestion; `relevance` models the literal `0.8`. -/
structure Expansion where
  hash : String
  toolName : Json
  relevance : Rat
deriving DecidableEq, Repr

/-- The `for hash_key, entry in ccr_store.items()` accumulation loop of
`ccr_analyze`: no sweep, no expiry filter, just the case-insensitive
containment test against each entry's serialization. -/
def analyzeLoop (query : String) : Store → List Expansion
  | [] => []
  | (h, e) :: rest =>
      if pyIn (strLower query) (strLower (Json.dumps e.content)) then
        ⟨h, e.toolName, relevanceScore⟩ :: analyzeLoop query rest
      else analyzeLoop query rest

/-- `ccr_analyze`: the accumulated expansions, cut to `[:5]`. -/
def ccrAnalyze (store : Store) (query : String) : List Expansion :=
  (analyzeLoop query store).take 5

/-! ## The compress endpoint (`compress_messages`, server.py lines 241-319) -/

/-- The `metrics` dict (counters only; `start_time` is a fixed string the
claims never touch). -/
structure Metrics where
  requestsTotal : Nat
  compressionsApplied : Nat
  compressionsSkipped : Nat
  errors : Nat
  ccrStores : Nat
  ccrRetrievals : Nat
  totalTokensBefore : Nat
  totalTokensAfter : Nat
deriving DecidableEq, Repr

/-- The `CompressResponse` model. -/
structure CompressResponse where
  messages : List Msg
  tools : Option JList
  compressed : Bool
  stats : JObj
deriving DecidableEq, Repr

/-- A compress call's response together with the store and metrics after
the call. -/
structure CompressOutcome where
  resp : CompressResponse
  store : Store
  metrics : Metrics
deriving DecidableEq, Repr

/-- `compress_messages` (server.py lines 241-319) on its non-error path.
`minTokens` is `config.smart_crusher_min_tokens`; `now` is the wall
clock driving store timestamps; `latMs` stands for the measured
`round((time.time() - start_time) * 1000, 1)` latency. `pipeline` models
the external Headroom engine (an excluded collaborator): `some (msgs,
transforms)` is a loaded pipeline returning that normalized result
(lines 265-306), `none` covers both an unavailable pipeline and one that
raised, in which case control falls through to `basic_compress`. -/
def compressMessages (minTokens : Nat) (pipeline : Option (List Msg × List String))
    (now latMs : Nat) (messages : List Msg) (tools : Option JList)
    (store : Store) (m : Metrics) : CompressOutcome :=
  let m1 := { m with requestsTotal := m.requestsTotal + 1 }
  let tokensBefore := estimateMsgs messages
  let m2 := { m1 with totalTokensBefore := m1.totalTokensBefore + tokensBefore }
  if tokensBefore < minTokens then
    ⟨⟨messages, tools, false,
      .cons "skipped" (.jbool true)
        (.cons "reason"
          (.str ("Below threshold (" ++ Nat.repr tokensBefore ++ " < " ++
                 Nat.repr minTokens ++ ")")) .nil)⟩,
     store,
     { m2 with compressionsSkipped := m2.compressionsSkipped + 1 }⟩
  else
    match pipeline with
    | some (msgs2, transforms) =>
        let tokensAfter := estimateMsgs msgs2
        ⟨⟨msgs2, tools, decide (tokensAfter < tokensBefore),
          statsObj tokensBefore tokensAfter transforms latMs⟩,
         store,
         { m2 with totalTokensAfter := m2.totalTokensAfter + tokensAfter,
                   compressionsApplied := m2.compressionsApplied + 1 }⟩
    | none =>
        let r := basicCompress now store messages tools
        let m3 := { m2 with
          totalTokensAfter := m2.totalTokensAfter + r.stats.getNat "tokens_after",
          ccrStores := m2.ccrStores + r.storesInc }
        let m4 :=
          if r.compressed then
            { m3 with compressionsApplied := m3.compressionsApplied + 1 }
          else
            { m3 with compressionsSkipped := m3.compressionsSkipped + 1 }
        ⟨⟨r.messages, r.tools, r.compressed, r.stats.set "latency_ms" (.num latMs)⟩,
         r.store, m4⟩

/-! ## Input shapes, claim-side definitions and demo values -/

/-- A `tool_result` block carrying a tool id and a content value. -/
def toolResultBlock (tid content : Json) : Json :=
  .obj (.cons "type" (.str "tool_result")
    (.cons "tool_use_id" tid (.cons "content" content .nil)))

/-- A user message whose content is the single block above. -/
def toolResultMsg (tid content : Json) : Msg :=
  .cons "role" (.str "user")
    (.cons "content" (.arr (.cons (toolResultBlock tid content) .nil)) .nil)

/-- The same message after offload: the content string replaced by the
CCR reference. -/
def refMsg (tid : Json) (c : String) : Msg :=
  toolResultMsg tid (.str (ccrRef (generateHash (.str c)) c.length))

/-- Content values `basic_compress` must pass through: anything that is
not a string, or a string of at most 2000 characters. -/
def smallContent (j : Json) : Prop :=
  match j with
  | .str s => s.length ≤ 2000
  | _ => True

instance (j : Json) : Decidable (smallContent j) := by
  unfold smallContent; cases j <;> infer_instance

/-- A 2001-character content string (over the 2000 threshold). -/
def demoC : String := String.mk (List.replicate 2001 'a')

/-- A tool-use id label. -/
def demoTid : Json := .str "toolu_01"

/-- One user message holding one oversized tool-result block. -/
def demoMsg : Msg := toolResultMsg demoTid (.str demoC)

/-- A small conversation (well under any realistic gate). -/
def demoSmallMsg : Msg :=
  JObj.cons "role" (.str "user") (JObj.cons "content" (.str "hi") .nil)

/-- The claim's reading of `analyze`: suggestions drawn from non-expired
entries only (an expiry sweep before the scan). Written from the spec's
words, to compare with `ccrAnalyze` from the source. -/
def analyzeSpecLive (now ttl : Nat) (store : Store) (query : String) : List Expansion :=
  (((cleanupExpiredCcr now ttl store).filter fun p =>
      pyIn (strLower query) (strLower (Json.dumps p.2.content))).map
    (fun p => ⟨p.1, p.2.toolName, relevanceScore⟩)).take 5

/-- The amended behavior, written independently of the source's loop:
filter all currently present entries (expired or not), map each to a
suggestion, keep the first five. -/
def analyzeSpecAll (store : Store) (query : String) : List Expansion :=
  ((store.filter fun p =>
      pyIn (strLower query) (strLower (Json.dumps p.2.content))).map
    (fun p => ⟨p.1, p.2.toolName, relevanceScore⟩)).take 5

/-- A store whose single matching entry is long expired at time 400
(TTL 300, written at time 0). -/
def demoExpiredStore : Store := [("k1", ⟨.str "an error log", 0, .str "tool"⟩)]

/-- A one-entry store for the retrieval witnesses. -/
def demoRetrieveStore : Store := [("addr1", ⟨Json.str "payload text", 10, demoTid⟩)]

/-- A store holding one list payload for the search witness. -/
def demoListStore : Store :=
  [("addrL",
    ⟨Json.arr (.cons (.obj (.cons "msg" (.str "Error in step 1") .nil))
      (.cons (.obj (.cons "msg" (.str "ok") .nil))
        (.cons (.obj (.cons "msg" (.str "another ERROR here") .nil))
          (.cons (.obj (.cons "msg" (.str "fine") .nil)) .nil)))),
     10, demoTid⟩)]

/-! ## Helper lemmas: characters, escaping, serialized lengths -/

/-- The characters a decimal `Nat.repr` can produce. -/
def digitList : List Char :=
  ("0123456789" : String).data

/-- The lowercase hexadecimal alphabet of a `hexdigest`. -/
def hexList : List Char :=
  ("0123456789abcdef" : String).data

/-- A character `json.dumps` leaves alone: printable ASCII that is
neither a quote nor a backslash. -/
def plainChar (c : Char) : Prop :=
  c ≠ '"' ∧ c ≠ '\\' ∧ 32 ≤ c.toNat ∧ c.toNat ≤ 126

instance (c : Char) : Decidable (plainChar c) := by
  unfold plainChar; infer_instance

/-- The constructor form really is the literal 0.8. -/
theorem relevanceScore_eq : relevanceScore = (0.8 : Rat) := by
  show (⟨4, 5, by decide, by decide⟩ : Rat) = (0.8 : Rat)
  rw [Rat.mk'_eq_divInt]
  norm_num [Rat.divInt_eq_div]

theorem digitChar_mem_digitList : ∀ n < 10, Nat.digitChar n ∈ digitList := by decide

theorem toDigitsCore_mem (fuel : Nat) : ∀ (n : Nat) (ds : List Char),
    (∀ c ∈ ds, c ∈ digitList) → ∀ c ∈ Nat.toDigitsCore 10 fuel n ds, c ∈ digitList := by
  induction fuel with
  | zero => intro n ds hds c hc; exact hds c hc
  | succ fuel ih =>
    intro n ds hds c hc
    unfold Nat.toDigitsCore at hc
    have hd : Nat.digitChar (n % 10) ∈ digitList :=
      digitChar_mem_digitList _ (Nat.mod_lt _ (by omega))
    by_cases h : n / 10 = 0
    · rw [if_pos h, List.mem_cons] at hc
      rcases hc with hc | hc
      · rw [hc]; exact hd
      · exact hds c hc
    · rw [if_neg h] at hc
      refine ih (n / 10) (Nat.digitChar (n % 10) :: ds) ?_ c hc
      intro c2 hc2
      rw [List.mem_cons] at hc2
      rcases hc2 with hc2 | hc2
      · rw [hc2]; exact hd
      · exact hds c2 hc2

theorem toDigitsCore_len (fuel : Nat) : ∀ (n : Nat) (ds : List Char),
    (Nat.toDigitsCore 10 fuel n ds).length ≤ ds.length + n / 10 + 1 := by
  induction fuel with
  | zero => intro n ds; unfold Nat.toDigitsCore; omega
  | succ fuel ih =>
    intro n ds
    unfold Nat.toDigitsCore
    by_cases h : n / 10 = 0
    · rw [if_pos h]; simp
    · rw [if_neg h]
      have h1 := ih (n / 10) (Nat.digitChar (n % 10) :: ds)
      have h3 : n / 10 / 10 ≤ n / 10 / 2 := Nat.div_le_div_left (by omega) (by omega)
      simp only [List.length_cons] at h1
      omega

/-- Every character of a decimal rendering is a decimal digit. -/
theorem repr_mem_digitList (n : Nat) : ∀ c ∈ (Nat.repr n).data, c ∈ digitList := by
  intro c hc
  exact toDigitsCore_mem (n + 1) n [] (by simp) c hc

/-- A decimal rendering of `n` has at most `n / 10 + 1` characters. -/
theorem repr_len_le (n : Nat) : (Nat.repr n).length ≤ n / 10 + 1 := by
  have h1 := toDigitsCore_len (n + 1) n []
  simpa [Nat.repr, Nat.toDigits, List.asString, String.length] using h1

theorem hexDigit_mem_hexList : ∀ n < 16, hexDigit n ∈ hexList := by decide

theorem digitList_plain : ∀ c ∈ digitList, plainChar c := by decide

theorem hexList_plain : ∀ c ∈ hexList, plainChar c := by decide

/-- Escaping a plain character keeps it. -/
theorem escChar_of_plain (c : Char) (h : plainChar c) : escChar c = String.mk [c] := by
  obtain ⟨h1, h2, h3, h4⟩ := h
  have e3 : c ≠ '\n' := by rintro rfl; revert h3; decide
  have e4 : c ≠ '\t' := by rintro rfl; revert h3; decide
  have e5 : c ≠ '\r' := by rintro rfl; revert h3; decide
  have e6 : ¬ c.toNat = 8 := by omega
  have e7 : ¬ c.toNat = 12 := by omega
  unfold escChar
  rw [if_neg h1, if_neg h2, if_neg e3, if_neg e4, if_neg e5, if_neg e6, if_neg e7,
      if_pos ⟨h3, h4⟩]

/-- Escaping a list of plain characters is the identity. -/
theorem escapeChars_of_plain (l : List Char) (h : ∀ c ∈ l, plainChar c) :
    escapeChars l = String.mk l := by
  induction l with
  | nil => rfl
  | cons c cs ih =>
    have hc := h c (List.mem_cons_self c cs)
    have hcs := ih fun x hx => h x (List.mem_cons_of_mem c hx)
    show escChar c ++ escapeChars cs = String.mk (c :: cs)
    rw [escChar_of_plain c hc, hcs]
    rfl

/-- Escaping never shortens: each character maps to at least one. -/
theorem escChar_len_pos (c : Char) : 1 ≤ (escChar c).length := by
  unfold escChar
  repeat' split
  all_goals first
    | decide
    | simp [hex4, String.length_append, String.length_mk]

theorem escapeChars_len_ge (l : List Char) : l.length ≤ (escapeChars l).length := by
  induction l with
  | nil => simp [escapeChars]
  | cons c cs ih =>
    show (c :: cs).length ≤ (escChar c ++ escapeChars cs).length
    rw [String.length_append]
    have := escChar_len_pos c
    simp only [List.length_cons]
    omega

/-- `escapeString` never shortens a string. -/
theorem escapeString_len_ge (s : String) : s.length ≤ (escapeString s).length :=
  escapeChars_len_ge s.data

/-! ## Helper lemmas: the address shape -/

theorem hexOfBytes_length (bs : List Nat) : (hexOfBytes bs).length = 2 * bs.length := by
  induction bs with
  | nil => rfl
  | cons b tl ih => simp [hexOfBytes, ih]; omega

theorem hexOfBytes_mem (bs : List Nat) : ∀ c ∈ hexOfBytes bs, c ∈ hexList := by
  induction bs with
  | nil => intro c hc; cases hc
  | cons b tl ih =>
    intro c hc
    rw [show hexOfBytes (b :: tl) =
          hexDigit (b / 16 % 16) :: hexDigit (b % 16) :: hexOfBytes tl from rfl,
        List.mem_cons, List.mem_cons] at hc
    rcases hc with hc | hc | hc
    · rw [hc]; exact hexDigit_mem_hexList _ (Nat.mod_lt _ (by omega))
    · rw [hc]; exact hexDigit_mem_hexList _ (Nat.mod_lt _ (by omega))
    · exact ih c hc

theorem sha256_length (msg : List Nat) : (sha256 msg).length = 32 := by
  simp [sha256, wordBytes]

/-- The address of `generate_hash` is always 12 characters long. -/
theorem generateHash_length (j : Json) : (generateHash j).length = 12 := by
  unfold generateHash
  rw [String.length_mk, List.length_take, hexOfBytes_length, sha256_length]
  decide

/-- Every character of a `generate_hash` address is a lowercase hex digit. -/
theorem generateHash_mem_hexList (j : Json) : ∀ c ∈ (generateHash j).data, c ∈ hexList := by
  intro c hc
  unfold generateHash at hc
  exact hexOfBytes_mem _ c (List.take_subset 12 _ hc)

/-! ## Helper lemmas: the store as a Python dict -/

theorem storeGet_storeSet_self (s : Store) (k : String) (e : Entry) :
    storeGet (storeSet s k e) k = some e := by
  induction s with
  | nil => simp [storeSet, storeGet]
  | cons p tl ih =>
    obtain ⟨k0, e0⟩ := p
    by_cases h : k0 = k
    · simp [storeSet, storeGet, h]
    · simp [storeSet, storeGet, h, ih]

theorem storeGet_eq_none_of_not_mem (s : Store) (k : String)
    (h : k ∉ s.map Prod.fst) : storeGet s k = none := by
  induction s with
  | nil => rfl
  | cons p tl ih =>
    obtain ⟨k0, e0⟩ := p
    simp only [List.map_cons, List.mem_cons] at h
    push_neg at h
    have hne : ¬ k0 = k := fun he => h.1 he.symm
    show (if k0 = k then some e0 else storeGet tl k) = none
    rw [if_neg hne]
    exact ih h.2

theorem storeSet_length_of_get_none (s : Store) (k : String) (e : Entry)
    (h : storeGet s k = none) : (storeSet s k e).length = s.length + 1 := by
  induction s with
  | nil => rfl
  | cons p tl ih =>
    obtain ⟨k0, e0⟩ := p
    by_cases hk : k0 = k
    · rw [show storeGet ((k0, e0) :: tl) k = some e0 by simp [storeGet, hk]] at h
      cases h
    · rw [show storeGet ((k0, e0) :: tl) k = storeGet tl k by simp [storeGet, hk]] at h
      simp only [storeSet, if_neg hk, List.length_cons, ih h]

theorem keys_storeSet (s : Store) (k : String) (e : Entry) :
    (storeSet s k e).map Prod.fst = if k ∈ s.map Prod.fst then s.map Prod.fst
      else s.map Prod.fst ++ [k] := by
  induction s with
  | nil => simp [storeSet]
  | cons p tl ih =>
    obtain ⟨k0, e0⟩ := p
    by_cases hk : k0 = k
    · simp [storeSet, hk]
    · have hne : ¬ k = k0 := fun he => hk he.symm
      simp only [storeSet, if_neg hk, List.map_cons, ih, List.mem_cons]
      by_cases hm : k ∈ tl.map Prod.fst
      · simp [hm, hne]
      · simp [hm, hne]

theorem keysNodup_storeSet (s : Store) (k : String) (e : Entry)
    (h : keysNodup s) : keysNodup (storeSet s k e) := by
  unfold keysNodup at h ⊢
  rw [keys_storeSet]
  by_cases hm : k ∈ s.map Prod.fst
  · simpa [hm] using h
  · simpa [hm] using h.append (by simp) (by simpa using hm)

theorem countKey_eq_zero_of_not_mem (s : Store) (k : String)
    (h : k ∉ s.map Prod.fst) : countKey s k = 0 := by
  induction s with
  | nil => rfl
  | cons p tl ih =>
    obtain ⟨k0, e0⟩ := p
    simp only [List.map_cons, List.mem_cons] at h
    push_neg at h
    have hne : ¬ k0 = k := fun he => h.1 he.symm
    unfold countKey at ih ⊢
    rw [List.filter_cons]
    simp only [decide_eq_true_eq, hne, if_false]
    exact ih h.2

/-- With unique keys, overwriting at a key leaves exactly one entry there. -/
theorem countKey_storeSet_self (s : Store) (k : String) (e : Entry)
    (h : keysNodup s) : countKey (storeSet s k e) k = 1 := by
  induction s with
  | nil => simp [storeSet, countKey]
  | cons p tl ih =>
    obtain ⟨k0, e0⟩ := p
    unfold keysNodup at h
    simp only [List.map_cons, List.nodup_cons] at h
    by_cases hk : k0 = k
    · subst hk
      rw [show storeSet ((k0, e0) :: tl) k0 e = (k0, e) :: tl by simp [storeSet]]
      have h0 := countKey_eq_zero_of_not_mem tl k0 h.1
      unfold countKey at h0 ⊢
      simp [List.filter_cons, h0]
    · simp only [storeSet, if_neg hk]
      unfold countKey
      rw [List.filter_cons]
      simp only [decide_eq_true_eq, hk, if_false]
      have h1 := ih h.2
      unfold countKey at h1
      exact h1

/-- Lookup through the sweep: with unique keys, a swept store still finds
exactly the unexpired entry the original held. -/
theorem storeGet_cleanup (now ttl : Nat) (s : Store) (k : String)
    (h : keysNodup s) :
    storeGet (cleanupExpiredCcr now ttl s) k =
      match storeGet s k with
      | none => none
      | some e => if now - e.timestamp ≤ ttl then some e else none := by
  induction s with
  | nil => rfl
  | cons p tl ih =>
    obtain ⟨k0, e0⟩ := p
    unfold keysNodup at h
    simp only [List.map_cons, List.nodup_cons] at h
    unfold cleanupExpiredCcr at ih ⊢
    rw [List.filter_cons]
    by_cases hk : k0 = k
    · subst hk
      rw [show storeGet ((k0, e0) :: tl) k0 = some e0 by simp [storeGet]]
      by_cases he : now - e0.timestamp ≤ ttl
      · simp only [decide_eq_true_eq, he, if_true]
        simp [storeGet, he]
      · simp only [decide_eq_true_eq, he, if_false]
        apply storeGet_eq_none_of_not_mem
        intro hmem
        refine h.1 ?_
        exact (List.map_subset _ (List.filter_sublist tl).subset) hmem
    · rw [show storeGet ((k0, e0) :: tl) k = storeGet tl k by simp [storeGet, hk]]
      by_cases he : now - e0.timestamp ≤ ttl
      · simp only [decide_eq_true_eq, he, if_true]
        rw [show storeGet ((k0, e0) :: List.filter (fun p => decide (now - p.2.timestamp ≤ ttl)) tl) k
              = storeGet (List.filter (fun p => decide (now - p.2.timestamp ≤ ttl)) tl) k
            by simp [storeGet, hk]]
        exact ih h.2
      · simp only [decide_eq_true_eq, he, if_false]
        exact ih h.2

theorem keysNodup_cleanup (now ttl : Nat) (s : Store) (h : keysNodup s) :
    keysNodup (cleanupExpiredCcr now ttl s) := by
  unfold keysNodup at h ⊢
  exact h.sublist (List.Sublist.map _ (List.filter_sublist s))

/-! ## A canonical oversized-tool-result message -/



/-- Walking a single oversized tool-result message stores the content
under its hash and rewrites the block to the reference string. -/
theorem compressMsgList_offload (now : Nat) (st : Store) (tid : Json) (c : String)
    (hc : 2000 < c.length) :
    compressMsgList now st [toolResultMsg tid (.str c)] =
      ([refMsg tid c], storeSet st (generateHash (.str c)) ⟨.str c, now, tid⟩, 1) := by
  simp [compressMsgList, compressOneMsg, processBlocks, processBlock, toolResultMsg,
        toolResultBlock, refMsg, JObj.get, JObj.set, Json.bget, Json.bgetD, Json.bset, hc]

/-- Serialized length of the one-message conversation: a fixed frame of
88 characters around the serialized tool id and the escaped content. -/
theorem dumps_single_msg_len (tid : Json) (c : String) :
    (Json.dumps (.arr (packMsgs [toolResultMsg tid (.str c)]))).length =
      88 + (Json.dumps tid).length + (escapeString c).length := by
  have h1 : escapeString "role" = "role" := by decide
  have h2 : escapeString "user" = "user" := by decide
  have h3 : escapeString "content" = "content" := by decide
  have h4 : escapeString "type" = "type" := by decide
  have h5 : escapeString "tool_result" = "tool_result" := by decide
  have h6 : escapeString "tool_use_id" = "tool_use_id" := by decide
  have l1 : ("role" : String).length = 4 := by decide
  have l2 : ("user" : String).length = 4 := by decide
  have l3 : ("content" : String).length = 7 := by decide
  have l4 : ("type" : String).length = 4 := by decide
  have l5 : ("tool_result" : String).length = 11 := by decide
  have l6 : ("tool_use_id" : String).length = 11 := by decide
  have l7 : ("\"" : String).length = 1 := by decide
  have l8 : (": " : String).length = 2 := by decide
  have l9 : (", " : String).length = 2 := by decide
  have l10 : ("[" : String).length = 1 := by decide
  have l11 : ("]" : String).length = 1 := by decide
  have l12 : ("\x7b" : String).length = 1 := by decide
  have l13 : ("\x7d" : String).length = 1 := by decide
  have m1 : ("\"role\": \"user\", " : String).length = 16 := by decide
  have m2 : ("\"content\": " : String).length = 11 := by decide
  have m3 : ("\"type\": \"tool_result\", " : String).length = 23 := by decide
  have m4 : ("\"tool_use_id\": " : String).length = 15 := by decide
  simp [packMsgs, toolResultMsg, toolResultBlock, Json.dumps, JList.dumps, JObj.dumps,
        quoteStr, h1, h2, h3, h4, h5, h6, String.length_append,
        l1, l2, l3, l4, l5, l6, l7, l8, l9, l10, l11, l12, l13, m1, m2, m3, m4]
  omega

/-- Rebuilding a string from its characters is the identity. -/
theorem stringMk_data (s : String) : String.mk s.data = s := by
  cases s
  rfl

/-- Every character of a reference string is plain, provided the address
part is lowercase hex. -/
theorem ccrRef_plain (h : String) (n : Nat) (hh : ∀ c ∈ h.data, c ∈ hexList) :
    ∀ c ∈ (ccrRef h n).data, plainChar c := by
  intro c hc
  unfold ccrRef at hc
  simp only [String.data_append, List.mem_append] at hc
  have p1 : ∀ c ∈ ("[CCR:" : String).data, plainChar c := by decide
  have p2 : ∀ c ∈ ("] Content compressed (" : String).data, plainChar c := by decide
  have p3 : ∀ c ∈ (" chars). Use ccr_retrieve to access full content." : String).data,
      plainChar c := by decide
  rcases hc with ((((hc | hc) | hc) | hc) | hc)
  · exact p1 c hc
  · exact hexList_plain c (hh c hc)
  · exact p2 c hc
  · exact digitList_plain c (repr_mem_digitList n c hc)
  · exact p3 c hc

/-- Escaping a reference string is the identity. -/
theorem escapeString_ccrRef (p : Json) (n : Nat) :
    escapeString (ccrRef (generateHash p) n) = ccrRef (generateHash p) n := by
  rw [escapeString, escapeChars_of_plain _ (ccrRef_plain _ n (generateHash_mem_hexList p)),
      stringMk_data]

/-- Length of a reference string: an 88-character frame plus the decimal
rendering of the content length. -/
theorem ccrRef_len (p : Json) (n : Nat) :
    (ccrRef (generateHash p) n).length = 88 + (Nat.repr n).length := by
  have hl := generateHash_length p
  unfold ccrRef
  simp [String.length_append, hl]
  have a1 : ("[CCR:" : String).length = 5 := by decide
  have a2 : ("] Content compressed (" : String).length = 22 := by decide
  have a3 : (" chars). Use ccr_retrieve to access full content." : String).length = 49 := by
    decide
  omega

/-- Replacing an oversized content string by its reference strictly
shrinks the estimated token count of the conversation. -/
theorem estimate_refMsg_lt (tid : Json) (c : String) (hc : 2000 < c.length) :
    estimateMsgs [refMsg tid c] < estimateMsgs [toolResultMsg tid (.str c)] := by
  have e1 : ∀ msgs : List Msg,
      estimateMsgs msgs = (Json.dumps (.arr (packMsgs msgs))).length / 4 := fun _ => rfl
  show estimateMsgs [toolResultMsg tid (.str (ccrRef (generateHash (.str c)) c.length))] <
    estimateMsgs [toolResultMsg tid (.str c)]
  rw [e1, e1, dumps_single_msg_len, dumps_single_msg_len, escapeString_ccrRef, ccrRef_len]
  have b1 := escapeString_len_ge c
  have b2 := repr_len_le c.length
  omega

/-- Full characterization of `basic_compress` on one oversized
tool-result message. -/
theorem basicCompress_offload (now : Nat) (store : Store) (tid : Json) (c : String)
    (hc : 2000 < c.length) :
    basicCompress now store [toolResultMsg tid (.str c)] none =
      { messages := [refMsg tid c]
        tools := none
        compressed := true
        stats := statsObj (estimateMsgs [toolResultMsg tid (.str c)])
          (estimateMsgs [refMsg tid c]) ["basic_ccr"] 0
        store := storeSet store (generateHash (.str c)) ⟨.str c, now, tid⟩
        storesInc := 1 } := by
  have hlt : estimateTokens (Json.arr (packMsgs [refMsg tid c])) <
      estimateTokens (Json.arr (packMsgs [toolResultMsg tid (Json.str c)])) :=
    estimate_refMsg_lt tid c hc
  unfold basicCompress
  rw [compressMsgList_offload now store tid c hc]
  simp [estimateMsgs, hlt]



/-- Walking a single tool-result message with pass-through content
changes nothing: same message back, same store, no counter bump. -/
theorem compressMsgList_passthrough (now : Nat) (st : Store) (tid j : Json)
    (h : smallContent j) :
    compressMsgList now st [toolResultMsg tid j] = ([toolResultMsg tid j], st, 0) := by
  cases j with
  | str s =>
      have hs : ¬ 2000 < s.length := by
        unfold smallContent at h; omega
      simp [compressMsgList, compressOneMsg, processBlocks, processBlock, toolResultMsg,
            toolResultBlock, JObj.get, JObj.set, Json.bget, Json.bgetD, Json.bset, hs]
  | null =>
      simp [compressMsgList, compressOneMsg, processBlocks, processBlock, toolResultMsg,
            toolResultBlock, JObj.get, JObj.set, Json.bget, Json.bgetD, Json.bset]
  | jbool b =>
      simp [compressMsgList, compressOneMsg, processBlocks, processBlock, toolResultMsg,
            toolResultBlock, JObj.get, JObj.set, Json.bget, Json.bgetD, Json.bset]
  | num n =>
      simp [compressMsgList, compressOneMsg, processBlocks, processBlock, toolResultMsg,
            toolResultBlock, JObj.get, JObj.set, Json.bget, Json.bgetD, Json.bset]
  | arr xs =>
      simp [compressMsgList, compressOneMsg, processBlocks, processBlock, toolResultMsg,
            toolResultBlock, JObj.get, JObj.set, Json.bget, Json.bgetD, Json.bset]
  | obj kvs =>
      simp [compressMsgList, compressOneMsg, processBlocks, processBlock, toolResultMsg,
            toolResultBlock, JObj.get, JObj.set, Json.bget, Json.bgetD, Json.bset]

/-- `basic_compress` on one pass-through message: identical messages,
untouched store, zero counter bumps, empty transform list. -/
theorem basicCompress_passthrough (now : Nat) (st : Store) (tid j : Json)
    (h : smallContent j) :
    basicCompress now st [toolResultMsg tid j] none =
      { messages := [toolResultMsg tid j]
        tools := none
        compressed := false
        stats := statsObj (estimateMsgs [toolResultMsg tid j])
          (estimateMsgs [toolResultMsg tid j]) [] 0
        store := st
        storesInc := 0 } := by
  unfold basicCompress
  rw [compressMsgList_passthrough now st tid j h]
  simp [estimateMsgs]

/-! ## Helper lemmas: retrieval -/

/-- The query-miss failure is never the NotFound failure. -/
theorem queryMsg_ne_notFoundMsg (h : String) :
    ("Query not found in content" : String) ≠ notFoundMsg h := by
  intro he
  have h1 : ("Query not found in content" : String).data.head? = some 'Q' := by decide
  have h2 : (notFoundMsg h).data.head? = some 'H' := by
    unfold notFoundMsg
    rw [String.data_append, String.data_append,
        show ("Hash " : String).data = 'H' :: ['a', 's', 'h', ' '] from by decide]
    rfl
  rw [he, h2] at h1
  exact absurd h1 (by decide)

theorem JList.take_length_le : ∀ (n : Nat) (xs : JList), (JList.take n xs).length ≤ n
  | 0, _ => by simp [JList.take, JList.length]
  | n + 1, .nil => by simp [JList.take, JList.length]
  | n + 1, .cons x tl => by
      have h := JList.take_length_le n tl
      simp only [JList.take, JList.length]
      omega

/-! ## Helper lemmas: analysis -/

/-- The accumulation loop of `ccr_analyze` is a filter followed by a map. -/
theorem analyzeLoop_eq (query : String) (store : Store) :
    analyzeLoop query store =
      (store.filter fun p =>
        pyIn (strLower query) (strLower (Json.dumps p.2.content))).map
        (fun p => ⟨p.1, p.2.toolName, relevanceScore⟩) := by
  induction store with
  | nil => rfl
  | cons p tl ih =>
    obtain ⟨h, e⟩ := p
    by_cases hm : pyIn (strLower query) (strLower (Json.dumps e.content)) = true
    · simp [analyzeLoop, List.filter_cons, hm, ih]
    · simp [analyzeLoop, List.filter_cons, hm, ih]

/-! ## Demo inputs for witnesses and counterexamples -/



/-- The demo content really is over the threshold. -/
theorem demoC_length : demoC.length = 2001 := by
  unfold demoC
  rw [String.length_mk, List.length_replicate]

/-- The reference string never equals the oversized content it replaces:
it is shorter. -/
theorem ccrRef_ne_content (c : String) (hc : 2000 < c.length) :
    ccrRef (generateHash (.str c)) c.length ≠ c := by
  intro he
  have h1 := ccrRef_len (Json.str c) c.length
  have h2 := repr_len_le c.length
  rw [he] at h1
  omega

/-! ## Claim theorems -/

/-- C1: the CCR address is a pure function of the payload's canonical
(key-sorted) serialization; addresses are 12 lowercase-hex characters;
and after offloading the same oversized payload twice (any store, any
two times, any two tool labels) the store holds exactly one entry under
that payload's address. -/
theorem spec_C1_content_addressing (store : Store) (tid1 tid2 : Json) (c : String)
    (t1 t2 : Nat) (hn : keysNodup store) (hc : 2000 < c.length) :
    (∀ a b : Json, canonicalDumps a = canonicalDumps b → generateHash a = generateHash b)
    ∧ (generateHash (.str c)).length = 12
    ∧ (∀ ch ∈ (generateHash (.str c)).data, ch ∈ hexList)
    ∧ countKey
        (basicCompress t2 (basicCompress t1 store [toolResultMsg tid1 (.str c)] none).store
          [toolResultMsg tid2 (.str c)] none).store
        (generateHash (.str c)) = 1 := by
  refine ⟨?_, generateHash_length _, generateHash_mem_hexList _, ?_⟩
  · intro a b hab
    unfold generateHash canonicalDumps at *
    rw [hab]
  · rw [basicCompress_offload t1 store tid1 c hc,
        basicCompress_offload t2 _ tid2 c hc]
    exact countKey_storeSet_self _ _ _ (keysNodup_storeSet _ _ _ hn)

/-- Witness for C1 at a concrete input: the empty store and a
2001-character payload. -/
theorem spec_C1_witness :
    keysNodup ([] : Store) ∧ 2000 < demoC.length ∧
    ((∀ a b : Json, canonicalDumps a = canonicalDumps b → generateHash a = generateHash b)
      ∧ (generateHash (.str demoC)).length = 12
      ∧ (∀ ch ∈ (generateHash (.str demoC)).data, ch ∈ hexList)
      ∧ countKey
          (basicCompress 1 (basicCompress 0 [] [toolResultMsg demoTid (.str demoC)] none).store
            [toolResultMsg demoTid (.str demoC)] none).store
          (generateHash (.str demoC)) = 1) :=
  ⟨by decide, by rw [demoC_length]; omega,
   spec_C1_content_addressing [] demoTid demoTid demoC 0 1 (by decide)
     (by rw [demoC_length]; omega)⟩

/-- C7 counterexample: the claim says a second offload of an
already-present payload leaves the entry's creation timestamp untouched.
In the code, `ccr_store[hash_key] = {..., "timestamp": time.time(), ...}`
runs unconditionally: offloading the demo payload at time 0 and again at
time 5 leaves the entry stamped 5, not the original 0. -/
theorem spec_C7_counterexample :
    (storeGet (basicCompress 0 [] [toolResultMsg demoTid (.str demoC)] none).store
      (generateHash (.str demoC))).map Entry.timestamp = some 0
    ∧ (storeGet (basicCompress 5
        (basicCompress 0 [] [toolResultMsg demoTid (.str demoC)] none).store
        [toolResultMsg demoTid (.str demoC)] none).store
        (generateHash (.str demoC))).map Entry.timestamp = some 5
    ∧ (storeGet (basicCompress 5
        (basicCompress 0 [] [toolResultMsg demoTid (.str demoC)] none).store
        [toolResultMsg demoTid (.str demoC)] none).store
        (generateHash (.str demoC))).map Entry.timestamp ≠ some 0 := by
  have hc : 2000 < demoC.length := by rw [demoC_length]; omega
  rw [basicCompress_offload 0 [] demoTid demoC hc]
  rw [basicCompress_offload 5 _ demoTid demoC hc]
  simp only [storeGet_storeSet_self, Option.map_some]
  refine ⟨rfl, rfl, by simp⟩

/-- C7 amended: an offload always (re)writes the entry under the
payload's address with `timestamp = now` — a repeated offload refreshes
the timestamp (last-writer-wins) instead of leaving it untouched. -/
theorem spec_C7_amended (now : Nat) (store : Store) (tid : Json) (c : String)
    (hc : 2000 < c.length) :
    storeGet (basicCompress now store [toolResultMsg tid (.str c)] none).store
      (generateHash (.str c)) = some ⟨.str c, now, tid⟩ := by
  rw [basicCompress_offload now store tid c hc]
  exact storeGet_storeSet_self _ _ _

/-- Witness for the amended C7: the demo payload over a store already
holding an entry for it (written at time 0), re-offloaded at time 5. -/
theorem spec_C7_witness :
    2000 < demoC.length ∧
    storeGet (basicCompress 5 [(generateHash (.str demoC), ⟨.str demoC, 0, demoTid⟩)]
      [toolResultMsg demoTid (.str demoC)] none).store
      (generateHash (.str demoC)) = some ⟨.str demoC, 5, demoTid⟩ :=
  ⟨by rw [demoC_length]; omega,
   spec_C7_amended 5 [(generateHash (.str demoC), ⟨.str demoC, 0, demoTid⟩)] demoTid demoC
     (by rw [demoC_length]; omega)⟩

/-- C8 counterexample: the claim says a dedup hit leaves the `ccr_stores`
counter unchanged. Offloading the demo payload a second time — its entry
is already present — still bumps the counter by 1. -/
theorem spec_C8_counterexample :
    (storeGet (basicCompress 0 [] [toolResultMsg demoTid (.str demoC)] none).store
      (generateHash (.str demoC))).isSome = true
    ∧ (basicCompress 5 (basicCompress 0 [] [toolResultMsg demoTid (.str demoC)] none).store
        [toolResultMsg demoTid (.str demoC)] none).storesInc = 1 := by
  have hc : 2000 < demoC.length := by rw [demoC_length]; omega
  rw [basicCompress_offload 0 [] demoTid demoC hc]
  rw [basicCompress_offload 5 _ demoTid demoC hc]
  simp [storeGet_storeSet_self]

/-- C8 amended: `metrics["ccr_stores"] += 1` runs on every offload of an
oversized block — once per offload attempt, whether or not the address
was already present (the dict write is unconditional). -/
theorem spec_C8_amended (now : Nat) (store : Store) (tid : Json) (c : String)
    (hc : 2000 < c.length) :
    (basicCompress now store [toolResultMsg tid (.str c)] none).storesInc = 1 := by
  rw [basicCompress_offload now store tid c hc]

/-- Witness for the amended C8: the counter bump fires on a store that
already holds the demo payload's entry. -/
theorem spec_C8_witness :
    2000 < demoC.length ∧
    (basicCompress 5 [(generateHash (.str demoC), ⟨.str demoC, 0, demoTid⟩)]
      [toolResultMsg demoTid (.str demoC)] none).storesInc = 1 :=
  ⟨by rw [demoC_length]; omega,
   spec_C8_amended 5 [(generateHash (.str demoC), ⟨.str demoC, 0, demoTid⟩)] demoTid demoC
     (by rw [demoC_length]; omega)⟩

/-- C10: fallback compression offloads a tool-result block only when its
content is a string strictly longer than 2000 characters. A block whose
content is a list (or any other non-string value) of any size, or a
string of at most 2000 characters (2000 exactly included), passes
through unchanged: same messages, untouched store, no counter bump, no
transform recorded, `compressed = false`. -/
theorem spec_C10_offload_guard (now : Nat) (st : Store) (tid j : Json)
    (h : smallContent j) :
    basicCompress now st [toolResultMsg tid j] none =
      { messages := [toolResultMsg tid j]
        tools := none
        compressed := false
        stats := statsObj (estimateMsgs [toolResultMsg tid j])
          (estimateMsgs [toolResultMsg tid j]) [] 0
        store := st
        storesInc := 0 } :=
  basicCompress_passthrough now st tid j h

/-- Witness for C10 at two concrete inputs: a list-valued content block
holding a 3000-character string (not offloaded despite its size), and a
string content of exactly 2000 characters (not offloaded either). -/
theorem spec_C10_witness :
    (smallContent (.arr (.cons (.str (String.mk (List.replicate 3000 'x'))) .nil)) ∧
      basicCompress 0 []
        [toolResultMsg demoTid (.arr (.cons (.str (String.mk (List.replicate 3000 'x'))) .nil))]
        none =
        { messages := [toolResultMsg demoTid
            (.arr (.cons (.str (String.mk (List.replicate 3000 'x'))) .nil))]
          tools := none
          compressed := false
          stats := statsObj
            (estimateMsgs [toolResultMsg demoTid
              (.arr (.cons (.str (String.mk (List.replicate 3000 'x'))) .nil))])
            (estimateMsgs [toolResultMsg demoTid
              (.arr (.cons (.str (String.mk (List.replicate 3000 'x'))) .nil))]) [] 0
          store := []
          storesInc := 0 })
    ∧ (smallContent (.str (String.mk (List.replicate 2000 'x'))) ∧
      basicCompress 0 [] [toolResultMsg demoTid (.str (String.mk (List.replicate 2000 'x')))]
        none =
        { messages := [toolResultMsg demoTid (.str (String.mk (List.replicate 2000 'x')))]
          tools := none
          compressed := false
          stats := statsObj
            (estimateMsgs [toolResultMsg demoTid (.str (String.mk (List.replicate 2000 'x')))])
            (estimateMsgs [toolResultMsg demoTid (.str (String.mk (List.replicate 2000 'x')))])
            [] 0
          store := []
          storesInc := 0 }) :=
  ⟨⟨trivial,
    spec_C10_offload_guard 0 [] demoTid
      (.arr (.cons (.str (String.mk (List.replicate 3000 'x'))) .nil)) trivial⟩,
   ⟨by rw [show smallContent (.str (String.mk (List.replicate 2000 'x'))) =
        ((String.mk (List.replicate 2000 'x')).length ≤ 2000) from rfl,
        String.length_mk, List.length_replicate],
    spec_C10_offload_guard 0 [] demoTid (.str (String.mk (List.replicate 2000 'x')))
      (by rw [show smallContent (.str (String.mk (List.replicate 2000 'x'))) =
          ((String.mk (List.replicate 2000 'x')).length ≤ 2000) from rfl,
          String.length_mk, List.length_replicate])⟩⟩

/-- C4: on a user message holding a tool-result block whose string
content exceeds 2000 characters and is not yet stored, fallback
compression (i) rewrites exactly that block to the reference string
embedding the address and the original length, (ii) stores the content
under its address labeled with the block's `tool_use_id`, (iii) grows
the store by exactly one entry, (iv) bumps `ccr_stores` once, (v)
strictly shrinks the token estimate, and (vi) returns a fresh message
list distinct from the input (the embedding is pure, so the input value
itself is untouched by construction — the output is a copy). -/
theorem spec_C4_fallback_correctness (now : Nat) (store : Store) (tid : Json) (c : String)
    (hc : 2000 < c.length)
    (habs : storeGet store (generateHash (.str c)) = none) :
    (basicCompress now store [toolResultMsg tid (.str c)] none).messages = [refMsg tid c]
    ∧ (basicCompress now store [toolResultMsg tid (.str c)] none).store =
        storeSet store (generateHash (.str c)) ⟨.str c, now, tid⟩
    ∧ (basicCompress now store [toolResultMsg tid (.str c)] none).store.length =
        store.length + 1
    ∧ storeGet (basicCompress now store [toolResultMsg tid (.str c)] none).store
        (generateHash (.str c)) = some ⟨.str c, now, tid⟩
    ∧ (basicCompress now store [toolResultMsg tid (.str c)] none).storesInc = 1
    ∧ estimateMsgs (basicCompress now store [toolResultMsg tid (.str c)] none).messages <
        estimateMsgs [toolResultMsg tid (.str c)]
    ∧ (basicCompress now store [toolResultMsg tid (.str c)] none).compressed = true
    ∧ (basicCompress now store [toolResultMsg tid (.str c)] none).messages ≠
        [toolResultMsg tid (.str c)] := by
  rw [basicCompress_offload now store tid c hc]
  refine ⟨rfl, rfl, ?_, storeGet_storeSet_self _ _ _, rfl, ?_, rfl, ?_⟩
  · exact storeSet_length_of_get_none store _ _ habs
  · exact estimate_refMsg_lt tid c hc
  · intro he
    simp only [refMsg, toolResultMsg, toolResultBlock, List.cons.injEq, and_true,
      JObj.cons.injEq, Json.arr.injEq, JList.cons.injEq, Json.obj.injEq,
      Json.str.injEq, true_and] at he
    exact ccrRef_ne_content c hc he

/-- Witness for C4: the 2001-character demo payload offloaded into the
empty store at time 0. -/
theorem spec_C4_witness :
    2000 < demoC.length ∧ storeGet [] (generateHash (.str demoC)) = none ∧
    ((basicCompress 0 [] [toolResultMsg demoTid (.str demoC)] none).messages =
        [refMsg demoTid demoC]
      ∧ (basicCompress 0 [] [toolResultMsg demoTid (.str demoC)] none).store =
          storeSet [] (generateHash (.str demoC)) ⟨.str demoC, 0, demoTid⟩
      ∧ (basicCompress 0 [] [toolResultMsg demoTid (.str demoC)] none).store.length =
          List.length ([] : Store) + 1
      ∧ storeGet (basicCompress 0 [] [toolResultMsg demoTid (.str demoC)] none).store
          (generateHash (.str demoC)) = some ⟨.str demoC, 0, demoTid⟩
      ∧ (basicCompress 0 [] [toolResultMsg demoTid (.str demoC)] none).storesInc = 1
      ∧ estimateMsgs (basicCompress 0 [] [toolResultMsg demoTid (.str demoC)] none).messages <
          estimateMsgs [toolResultMsg demoTid (.str demoC)]
      ∧ (basicCompress 0 [] [toolResultMsg demoTid (.str demoC)] none).compressed = true
      ∧ (basicCompress 0 [] [toolResultMsg demoTid (.str demoC)] none).messages ≠
          [toolResultMsg demoTid (.str demoC)]) :=
  ⟨by rw [demoC_length]; omega, rfl,
   spec_C4_fallback_correctness 0 [] demoTid demoC (by rw [demoC_length]; omega) rfl⟩

/-- C5: when the estimated token count of the request is below the
configured minimum, `compress` returns the messages and tools unchanged
with `compressed = false`, its stats dict is exactly
`skipped = true` plus a reason string recording both compared values,
the store is untouched, and no compression strategy runs — the only
metric changes are the request counter, the running before-total, and
the skipped counter. -/
theorem spec_C5_gate_skip (minTokens : Nat) (pipe : Option (List Msg × List String))
    (now lat : Nat) (messages : List Msg) (tools : Option JList)
    (store : Store) (m : Metrics)
    (h : estimateMsgs messages < minTokens) :
    compressMessages minTokens pipe now lat messages tools store m =
      ⟨⟨messages, tools, false,
        .cons "skipped" (.jbool true)
          (.cons "reason"
            (.str ("Below threshold (" ++ Nat.repr (estimateMsgs messages) ++ " < " ++
                   Nat.repr minTokens ++ ")")) .nil)⟩,
       store,
       { m with requestsTotal := m.requestsTotal + 1,
                totalTokensBefore := m.totalTokensBefore + estimateMsgs messages,
                compressionsSkipped := m.compressionsSkipped + 1 }⟩ := by
  have h' : estimateTokens (Json.arr (packMsgs messages)) < minTokens := h
  simp [compressMessages, estimateMsgs, h']

/-- Witness for C5: a one-message conversation far below a 200-token
minimum; the skip outcome leaves the demo store of one entry alone. -/
theorem spec_C5_witness :
    estimateMsgs [JObj.cons "role" (.str "user") (JObj.cons "content" (.str "hi") .nil)] <
      200 ∧
    compressMessages 200 none 3 7
      [JObj.cons "role" (.str "user") (JObj.cons "content" (.str "hi") .nil)] none
      [("k", ⟨.str "v", 0, demoTid⟩)] ⟨1, 2, 3, 4, 5, 6, 7, 8⟩ =
      ⟨⟨[JObj.cons "role" (.str "user") (JObj.cons "content" (.str "hi") .nil)], none, false,
        .cons "skipped" (.jbool true)
          (.cons "reason"
            (.str ("Below threshold (" ++
              Nat.repr (estimateMsgs
                [JObj.cons "role" (.str "user") (JObj.cons "content" (.str "hi") .nil)]) ++
              " < " ++ Nat.repr 200 ++ ")")) .nil)⟩,
       [("k", ⟨.str "v", 0, demoTid⟩)],
       ⟨2, 2, 4, 4, 5, 6, 7 + estimateMsgs
          [JObj.cons "role" (.str "user") (JObj.cons "content" (.str "hi") .nil)], 8⟩⟩ :=
  ⟨by decide,
   spec_C5_gate_skip 200 none 3 7
     [JObj.cons "role" (.str "user") (JObj.cons "content" (.str "hi") .nil)] none
     [("k", ⟨.str "v", 0, demoTid⟩)] ⟨1, 2, 3, 4, 5, 6, 7, 8⟩ (by decide)⟩



/-- The stats dict `basic_compress` returns, read back off the result. -/
theorem basicCompress_stats (now : Nat) (store : Store) (messages : List Msg)
    (tools : Option JList) :
    (basicCompress now store messages tools).stats =
      statsObj (estimateMsgs messages)
        (estimateMsgs (basicCompress now store messages tools).messages)
        (if estimateMsgs (basicCompress now store messages tools).messages <
            estimateMsgs messages then ["basic_ccr"] else []) 0 := rfl

/-- C6 counterexample: the claim says every outcome, the skipped one
included, records `tokens_before`, `tokens_after`, latency and the
transform list in its stats and updates the running token totals. A
concrete below-threshold request produces a stats dict with none of
those keys, and the after-total metric is not updated. -/
theorem spec_C6_counterexample :
    (compressMessages 200 none 3 7 [demoSmallMsg] none [] ⟨0, 0, 0, 0, 0, 0, 0, 0⟩).resp.stats.get
      "tokens_before" = none
    ∧ (compressMessages 200 none 3 7 [demoSmallMsg] none [] ⟨0, 0, 0, 0, 0, 0, 0, 0⟩).resp.stats.get
        "tokens_after" = none
    ∧ (compressMessages 200 none 3 7 [demoSmallMsg] none [] ⟨0, 0, 0, 0, 0, 0, 0, 0⟩).resp.stats.get
        "latency_ms" = none
    ∧ (compressMessages 200 none 3 7 [demoSmallMsg] none [] ⟨0, 0, 0, 0, 0, 0, 0, 0⟩).resp.stats.get
        "transforms_applied" = none
    ∧ (compressMessages 200 none 3 7 [demoSmallMsg] none [] ⟨0, 0, 0, 0, 0, 0, 0, 0⟩).metrics.totalTokensAfter
        = 0
    ∧ (compressMessages 200 none 3 7 [demoSmallMsg] none [] ⟨0, 0, 0, 0, 0, 0, 0, 0⟩).metrics.compressionsSkipped
        = 1 := by
  decide

/-- C6 amended: the pipeline-success and fallback outcomes record
`tokens_before`, `tokens_after`, the applied-transform list, and the
latency in their stats, and update the running token totals plus the
applied-vs-skipped counters; the skipped outcome records only the
skipped flag and the reason string (which embeds the compared values),
updates the request counter, the before-total and the skipped counter,
and leaves the after-total untouched. -/
theorem spec_C6_stats_and_metrics (minTokens : Nat)
    (pipe : Option (List Msg × List String)) (now lat : Nat) (messages : List Msg)
    (tools : Option JList) (store : Store) (m : Metrics) :
    (estimateMsgs messages < minTokens →
      ((compressMessages minTokens pipe now lat messages tools store m).resp.stats =
          .cons "skipped" (.jbool true)
            (.cons "reason"
              (.str ("Below threshold (" ++ Nat.repr (estimateMsgs messages) ++ " < " ++
                     Nat.repr minTokens ++ ")")) .nil)
        ∧ (compressMessages minTokens pipe now lat messages tools store m).metrics =
            { m with requestsTotal := m.requestsTotal + 1,
                     totalTokensBefore := m.totalTokensBefore + estimateMsgs messages,
                     compressionsSkipped := m.compressionsSkipped + 1 }))
    ∧ (∀ msgs2 tfs, minTokens ≤ estimateMsgs messages → pipe = some (msgs2, tfs) →
        ((compressMessages minTokens pipe now lat messages tools store m).resp.stats.get
            "tokens_before" = some (.num (estimateMsgs messages))
          ∧ (compressMessages minTokens pipe now lat messages tools store m).resp.stats.get
              "tokens_after" = some (.num (estimateMsgs msgs2))
          ∧ (compressMessages minTokens pipe now lat messages tools store m).resp.stats.get
              "transforms_applied" = some (.arr (packStrs tfs))
          ∧ (compressMessages minTokens pipe now lat messages tools store m).resp.stats.get
              "latency_ms" = some (.num lat)
          ∧ (compressMessages minTokens pipe now lat messages tools store m).metrics =
              { m with requestsTotal := m.requestsTotal + 1,
                       totalTokensBefore := m.totalTokensBefore + estimateMsgs messages,
                       totalTokensAfter := m.totalTokensAfter + estimateMsgs msgs2,
                       compressionsApplied := m.compressionsApplied + 1 }))
    ∧ (minTokens ≤ estimateMsgs messages → pipe = none →
        ((compressMessages minTokens pipe now lat messages tools store m).resp.stats.get
            "tokens_before" = some (.num (estimateMsgs messages))
          ∧ (compressMessages minTokens pipe now lat messages tools store m).resp.stats.get
              "tokens_after" =
              some (.num (estimateMsgs (basicCompress now store messages tools).messages))
          ∧ (compressMessages minTokens pipe now lat messages tools store m).resp.stats.get
              "transforms_applied" =
              some (.arr (packStrs
                (if estimateMsgs (basicCompress now store messages tools).messages <
                    estimateMsgs messages then ["basic_ccr"] else [])))
          ∧ (compressMessages minTokens pipe now lat messages tools store m).resp.stats.get
              "latency_ms" = some (.num lat)
          ∧ (compressMessages minTokens pipe now lat messages tools store m).metrics.totalTokensBefore
              = m.totalTokensBefore + estimateMsgs messages
          ∧ (compressMessages minTokens pipe now lat messages tools store m).metrics.totalTokensAfter
              = m.totalTokensAfter +
                  estimateMsgs (basicCompress now store messages tools).messages
          ∧ ((basicCompress now store messages tools).compressed = true →
              (compressMessages minTokens pipe now lat messages tools store m).metrics.compressionsApplied
                = m.compressionsApplied + 1)
          ∧ ((basicCompress now store messages tools).compressed = false →
              (compressMessages minTokens pipe now lat messages tools store m).metrics.compressionsSkipped
                = m.compressionsSkipped + 1))) := by
  refine ⟨?_, ?_, ?_⟩
  · intro h
    have h' : estimateTokens (Json.arr (packMsgs messages)) < minTokens := h
    simp [compressMessages, estimateMsgs, h']
  · intro msgs2 tfs hge hpipe
    subst hpipe
    have h' : ¬ estimateTokens (Json.arr (packMsgs messages)) < minTokens :=
      Nat.not_lt.mpr hge
    simp [compressMessages, estimateMsgs, h', statsObj, JObj.get]
  · intro hge hpipe
    subst hpipe
    have h' : ¬ estimateTokens (Json.arr (packMsgs messages)) < minTokens :=
      Nat.not_lt.mpr hge
    simp only [compressMessages, estimateMsgs, h', if_false, if_neg h']
    rw [basicCompress_stats]
    cases hb : (basicCompress now store messages tools).compressed with
    | false => simp [statsObj, JObj.get, JObj.set, JObj.getNat, estimateMsgs, hb]
    | true => simp [statsObj, JObj.get, JObj.set, JObj.getNat, estimateMsgs, hb]

/-- Witness for the amended C6, exercising the skipped branch at a
concrete below-threshold request. -/
theorem spec_C6_witness :
    estimateMsgs [demoSmallMsg] < 200 ∧
    ((compressMessages 200 none 3 7 [demoSmallMsg] none [] ⟨0, 0, 0, 0, 0, 0, 0, 0⟩).resp.stats =
        .cons "skipped" (.jbool true)
          (.cons "reason"
            (.str ("Below threshold (" ++ Nat.repr (estimateMsgs [demoSmallMsg]) ++ " < " ++
                   Nat.repr 200 ++ ")")) .nil)
      ∧ (compressMessages 200 none 3 7 [demoSmallMsg] none [] ⟨0, 0, 0, 0, 0, 0, 0, 0⟩).metrics =
          { (⟨0, 0, 0, 0, 0, 0, 0, 0⟩ : Metrics) with
              requestsTotal := 0 + 1,
              totalTokensBefore := 0 + estimateMsgs [demoSmallMsg],
              compressionsSkipped := 0 + 1 }) :=
  ⟨by decide,
   (spec_C6_stats_and_metrics 200 none 3 7 [demoSmallMsg] none [] ⟨0, 0, 0, 0, 0, 0, 0, 0⟩).1
     (by decide)⟩



/-- C9 counterexample: the claim says `analyze` scans only non-expired
entries. `ccr_analyze` never sweeps and never checks the timestamp: at
time 400 with TTL 300 the demo entry is expired, the claim-side scan
returns nothing, yet `ccr_analyze` still returns a suggestion for it. -/
theorem spec_C9_counterexample :
    ccrAnalyze demoExpiredStore "error" = [⟨"k1", .str "tool", relevanceScore⟩]
    ∧ analyzeSpecLive 400 300 demoExpiredStore "error" = []
    ∧ ccrAnalyze demoExpiredStore "error" ≠ analyzeSpecLive 400 300 demoExpiredStore "error" := by
  refine ⟨by decide, by decide, by decide⟩

/-- C9 amended: `analyze` returns at most 5 suggestions, obtained by a
linear scan over all entries currently in the store — expired-but-unswept
entries included — keeping those whose serialization contains the query
case-insensitively, each carrying the entry's address, its source label,
and the fixed relevance 0.8. -/
theorem spec_C9_analyze_all_entries (store : Store) (query : String) :
    ccrAnalyze store query = analyzeSpecAll store query
    ∧ (ccrAnalyze store query).length ≤ 5 := by
  constructor
  · unfold ccrAnalyze analyzeSpecAll
    rw [analyzeLoop_eq]
  · unfold ccrAnalyze
    simp [List.length_take]

/-- The NotFound failure shape appears exactly when the swept store has
no entry under the requested address, whatever the query. -/
theorem ccrRetrieve_notFound_iff (now ttl : Nat) (store : Store) (h : String)
    (q : Option String) (mr : Option Int) :
    ((ccrRetrieve now ttl store h q mr).resp.success = false ∧
      (ccrRetrieve now ttl store h q mr).resp.error = some (notFoundMsg h)) ↔
    storeGet (cleanupExpiredCcr now ttl store) h = none := by
  simp only [ccrRetrieve]
  cases hget : storeGet (cleanupExpiredCcr now ttl store) h with
  | none => simp [hget]
  | some entry =>
    refine iff_of_false ?_ (by simp [hget])
    simp only [hget]
    cases q with
    | none => simp [fullResponse]
    | some qs =>
      by_cases hq : qs = ""
      · simp [hq, fullResponse]
      · cases hc : entry.content with
        | arr items => simp [hq, hc]
        | str s =>
          by_cases hin : pyIn (strLower qs) (strLower s) = true
          · simp [hq, hc, hin]
          · simp [hq, hc, hin, Option.some_inj, queryMsg_ne_notFoundMsg h]
        | null => simp [hq, hc, fullResponse]
        | jbool b => simp [hq, hc, fullResponse]
        | num n => simp [hq, hc, fullResponse]
        | obj kvs => simp [hq, hc, fullResponse]

/-- C2: after the sweep `ccr_retrieve` performs first, the structured
NotFound failure (success false, `"Hash ... not found or expired"`)
occurs exactly when the address is absent from the swept store; a
within-TTL entry is retrieved successfully with no query; and an entry
written at time `t` is still retrievable at `t + TTL - 1` but yields
NotFound at `t + TTL + 1`, when the sweep at the start of that later
retrieval has removed it. -/
theorem spec_C2_expiry_notfound (now ttl : Nat) (store : Store) (h : String)
    (q : Option String) (mr : Option Int) (hn : keysNodup store) :
    (((ccrRetrieve now ttl store h q mr).resp.success = false ∧
        (ccrRetrieve now ttl store h q mr).resp.error = some (notFoundMsg h)) ↔
      storeGet (cleanupExpiredCcr now ttl store) h = none)
    ∧ (∀ e, storeGet store h = some e → now - e.timestamp ≤ ttl →
        (ccrRetrieve now ttl store h none mr).resp = fullResponse e.content ∧
        (ccrRetrieve now ttl store h none mr).resp.success = true)
    ∧ (∀ e, storeGet store h = some e →
        (ccrRetrieve (e.timestamp + ttl - 1) ttl store h none mr).resp.success = true
        ∧ (ccrRetrieve (e.timestamp + ttl + 1) ttl store h none mr).resp =
            ⟨false, none, 0, false, some (notFoundMsg h)⟩) := by
  refine ⟨ccrRetrieve_notFound_iff now ttl store h q mr, ?_, ?_⟩
  · intro e hget hage
    simp only [ccrRetrieve]
    rw [storeGet_cleanup now ttl store h hn, hget]
    simp [hage, fullResponse]
  · intro e hget
    constructor
    · simp only [ccrRetrieve]
      rw [storeGet_cleanup _ _ _ _ hn, hget]
      have hage : e.timestamp + ttl - 1 - e.timestamp ≤ ttl := by omega
      simp [hage, fullResponse]
    · simp only [ccrRetrieve]
      rw [storeGet_cleanup _ _ _ _ hn, hget]
      have hage : ¬ (e.timestamp + ttl + 1 - e.timestamp ≤ ttl) := by omega
      simp [hage]



/-- Witness for C2 at a concrete store, address and time. -/
theorem spec_C2_witness :
    keysNodup demoRetrieveStore ∧
    ((((ccrRetrieve 20 300 demoRetrieveStore "addr1" none (some 20)).resp.success = false ∧
        (ccrRetrieve 20 300 demoRetrieveStore "addr1" none (some 20)).resp.error =
          some (notFoundMsg "addr1")) ↔
      storeGet (cleanupExpiredCcr 20 300 demoRetrieveStore) "addr1" = none)
    ∧ (∀ e, storeGet demoRetrieveStore "addr1" = some e → 20 - e.timestamp ≤ 300 →
        (ccrRetrieve 20 300 demoRetrieveStore "addr1" none (some 20)).resp =
          fullResponse e.content ∧
        (ccrRetrieve 20 300 demoRetrieveStore "addr1" none (some 20)).resp.success = true)
    ∧ (∀ e, storeGet demoRetrieveStore "addr1" = some e →
        (ccrRetrieve (e.timestamp + 300 - 1) 300 demoRetrieveStore "addr1" none
          (some 20)).resp.success = true
        ∧ (ccrRetrieve (e.timestamp + 300 + 1) 300 demoRetrieveStore "addr1" none
            (some 20)).resp =
            ⟨false, none, 0, false, some (notFoundMsg "addr1")⟩)) :=
  ⟨by decide, spec_C2_expiry_notfound 20 300 demoRetrieveStore "addr1" none (some 20) (by decide)⟩

/-- C3: for a live entry, retrieval with no query returns the full
payload untagged, so an offloaded payload round-trips within TTL; a
query against a list payload returns the prefix (at most `max_results`)
of items whose serialization contains the query case-insensitively,
tagged as a search; a query against a string payload returns the whole
string if it contains the query case-insensitively, else a
QueryNotFound failure distinct from the NotFound failure. -/
theorem spec_C3_query_semantics (now ttl : Nat) (store : Store) (h : String)
    (mr : Option Int) (hn : keysNodup store) :
    (∀ e, storeGet (cleanupExpiredCcr now ttl store) h = some e →
      (ccrRetrieve now ttl store h none mr).resp = fullResponse e.content ∧
      (ccrRetrieve now ttl store h none mr).resp.content = some e.content ∧
      (ccrRetrieve now ttl store h none mr).resp.wasSearch = false)
    ∧ (∀ tid c t, 2000 < c.length → now - t ≤ ttl →
        (ccrRetrieve now ttl
          (basicCompress t store [toolResultMsg tid (.str c)] none).store
          (generateHash (.str c)) none mr).resp =
          ⟨true, some (.str c), 1, false, none⟩)
    ∧ (∀ e xs q mrv, storeGet (cleanupExpiredCcr now ttl store) h = some e →
        e.content = .arr xs → q ≠ "" → (0 : Int) ≤ mrv →
        ((ccrRetrieve now ttl store h (some q) (some mrv)).resp =
          ⟨true, some (.arr (JList.take mrv.toNat (JList.filterQ q xs))),
           (JList.take mrv.toNat (JList.filterQ q xs)).length, true, none⟩
        ∧ (JList.take mrv.toNat (JList.filterQ q xs)).length ≤ mrv.toNat))
    ∧ (∀ e s q, storeGet (cleanupExpiredCcr now ttl store) h = some e →
        e.content = .str s → q ≠ "" →
        ((pyIn (strLower q) (strLower s) = true →
          (ccrRetrieve now ttl store h (some q) mr).resp =
            ⟨true, some (.str s), 1, true, none⟩)
        ∧ (pyIn (strLower q) (strLower s) = false →
          ((ccrRetrieve now ttl store h (some q) mr).resp =
            ⟨false, none, 0, false, some "Query not found in content"⟩
          ∧ ("Query not found in content" : String) ≠ notFoundMsg h)))) := by
  refine ⟨?_, ?_, ?_, ?_⟩
  · intro e hget
    simp only [ccrRetrieve]
    rw [hget]
    simp [fullResponse]
  · intro tid c t hc hage
    rw [basicCompress_offload t store tid c hc]
    simp only [ccrRetrieve]
    rw [storeGet_cleanup _ _ _ _ (keysNodup_storeSet _ _ _ hn),
        storeGet_storeSet_self]
    simp [hage, fullResponse]
  · intro e xs q mrv hget hc hq hmr
    refine ⟨?_, JList.take_length_le _ _⟩
    simp only [ccrRetrieve]
    rw [hget]
    simp [hq, hc, pySlice, hmr]
  · intro e s q hget hc hq
    constructor
    · intro hin
      simp only [ccrRetrieve]
      rw [hget]
      simp [hq, hc, hin]
    · intro hin
      refine ⟨?_, queryMsg_ne_notFoundMsg h⟩
      simp only [ccrRetrieve]
      rw [hget]
      simp [hq, hc, hin]



/-- Witness for C3, at the one-entry list-payload store. -/
theorem spec_C3_witness :
    keysNodup demoListStore ∧
    ((∀ e, storeGet (cleanupExpiredCcr 20 300 demoListStore) "addrL" = some e →
      (ccrRetrieve 20 300 demoListStore "addrL" none (some 2)).resp = fullResponse e.content ∧
      (ccrRetrieve 20 300 demoListStore "addrL" none (some 2)).resp.content = some e.content ∧
      (ccrRetrieve 20 300 demoListStore "addrL" none (some 2)).resp.wasSearch = false)
    ∧ (∀ tid c t, 2000 < c.length → 20 - t ≤ 300 →
        (ccrRetrieve 20 300
          (basicCompress t demoListStore [toolResultMsg tid (.str c)] none).store
          (generateHash (.str c)) none (some 2)).resp =
          ⟨true, some (.str c), 1, false, none⟩)
    ∧ (∀ e xs q mrv, storeGet (cleanupExpiredCcr 20 300 demoListStore) "addrL" = some e →
        e.content = .arr xs → q ≠ "" → (0 : Int) ≤ mrv →
        ((ccrRetrieve 20 300 demoListStore "addrL" (some q) (some mrv)).resp =
          ⟨true, some (.arr (JList.take mrv.toNat (JList.filterQ q xs))),
           (JList.take mrv.toNat (JList.filterQ q xs)).length, true, none⟩
        ∧ (JList.take mrv.toNat (JList.filterQ q xs)).length ≤ mrv.toNat))
    ∧ (∀ e s q, storeGet (cleanupExpiredCcr 20 300 demoListStore) "addrL" = some e →
        e.content = .str s → q ≠ "" →
        ((pyIn (strLower q) (strLower s) = true →
          (ccrRetrieve 20 300 demoListStore "addrL" (some q) (some 2)).resp =
            ⟨true, some (.str s), 1, true, none⟩)
        ∧ (pyIn (strLower q) (strLower s) = false →
          ((ccrRetrieve 20 300 demoListStore "addrL" (some q) (some 2)).resp =
            ⟨false, none, 0, false, some "Query not found in content"⟩
          ∧ ("Query not found in content" : String) ≠ notFoundMsg "addrL"))))) :=
  ⟨by decide, spec_C3_query_semantics 20 300 demoListStore "addrL" (some 2) (by decide)⟩

/-- FIPS 180-4 test vector: the SHA-256 digest of the empty message,
pinning the embedded hash against the real algorithm. -/
theorem sha256_vector_empty :
    String.mk (hexOfBytes (sha256 [])) =
      "e3b0c44298fc1c149afbf4c8996fb92427ae41e4649b934ca495991b7852b855" := by
  decide

/-- FIPS 180-4 test vector: the SHA-256 digest of `"abc"`. -/
theorem sha256_vector_abc :
    String.mk (hexOfBytes (sha256 (strBytes ("abc")))) =
      "ba7816bf8f01cfea414140de5dae2223b00361a396177a9cb410ff61f20015ad" := by
  decide

/-- End-to-end address vector, matching
`hashlib.sha256(json.dumps("hello", sort_keys=True).encode()).hexdigest()[:12]`. -/
theorem generateHash_vector_hello :
    generateHash (Json.str ("hello")) = "5aa762ae383f" := by
  decide
